import Mathlib

/-!
Shallow embedding of the MovieLens ratings-analytics engine
(`scripts/movielens_analyzer.py` and the loader state of
`scripts/movielens_data_loader.py`).

Tables are lists of rows; pandas group-by iterates keys in ascending
sorted order, which we model with `sortedKeysBy`; `DataFrame.round`
uses round-half-to-even, modelled by `roundHE`.  Python floats are
modelled by `ℝ` (exact real arithmetic); rational intermediate values
stay in `ℚ`.
-/

namespace MovieLens

/-! ### Data model -/

structure RatingRow where
  user_id : ℕ
  movie_id : ℕ
  rating : ℤ
  timestamp : ℤ
deriving DecidableEq, Repr

structure UserRow where
  user_id : ℕ
  age : ℕ
  gender : String
  occupation : String
  zip_code : String
deriving DecidableEq, Repr

structure MovieRow where
  movie_id : ℕ
  title : String
  release_date : Option String
deriving DecidableEq, Repr

structure MovieGenreRow where
  movie_id : ℕ
  genre : String
deriving DecidableEq, Repr

/-! ### Rounding (numpy/pandas `round`: half to even) -/

/-- Round-half-to-even on rationals, as numpy `round` does at digit 0. -/
def roundHE (x : ℚ) : ℤ :=
  let n := ⌊x⌋
  if x - n < 1/2 then n
  else if 1/2 < x - n then n + 1
  else if Even n then n else n + 1

/-- `DataFrame.round p`: round to `p` decimal places, half to even. -/
def rnd (p : ℕ) (x : ℚ) : ℚ := (roundHE (x * 10 ^ p) : ℚ) / 10 ^ p

open Classical in
/-- Round-half-to-even on reals (for float-valued columns such as std). -/
noncomputable def roundHER (x : ℝ) : ℤ :=
  let n := ⌊x⌋
  if x - n < 1/2 then n
  else if 1/2 < x - n then n + 1
  else if Even n then n else n + 1

/-- Real-valued version of `rnd`. -/
noncomputable def rndR (p : ℕ) (x : ℝ) : ℝ := (roundHER (x * 10 ^ p) : ℝ) / 10 ^ p

/-! ### Group-by keys: pandas iterates groups in ascending key order -/

/-- The distinct keys of a column, in ascending `le` order (pandas
`groupby` with default `sort=True`). -/
def sortedKeysBy [DecidableEq κ] (le : κ → κ → Bool) (l : List κ) : List κ :=
  l.dedup.mergeSort le

/-- Minimum of a list of naturals (`agg 'min'` on a nonempty group). -/
def minList : List ℕ → ℕ
  | [] => 0
  | a :: t => t.foldl Nat.min a

/-- Maximum of a list of naturals (`agg 'max'` on a nonempty group). -/
def maxList : List ℕ → ℕ
  | [] => 0
  | a :: t => t.foldl Nat.max a

/-- Arithmetic mean of a rational column (pandas `agg 'mean'`). -/
def listMean (l : List ℚ) : ℚ := l.sum / l.length

/-- Sample variance (`ddof = 1`), the square of pandas `agg 'std'`. -/
def sampleVar (l : List ℚ) : ℚ :=
  (l.map (fun x => (x - listMean l) ^ 2)).sum / ((l.length : ℚ) - 1)

/-! ### Task 3 helper: age buckets -/

/-- `get_age_group` from `analyze_top_genres_by_occupation_age`. -/
def get_age_group (age : ℕ) : String :=
  if 20 ≤ age ∧ age < 25 then "20-25"
  else if 25 ≤ age ∧ age < 35 then "25-35"
  else if 35 ≤ age ∧ age < 45 then "35-45"
  else if 45 ≤ age then "45+"
  else "Under 20"

/-! ### Comparators (Python / pandas ascending sort orders) -/

def strLE (a b : String) : Bool := decide (a ≤ b)

def natLE (a b : ℕ) : Bool := decide (a ≤ b)

/-- Python tuple comparison on `(occupation, age_group)` pairs. -/
def pairLE (a b : String × String) : Bool :=
  decide (a.1 < b.1 ∨ (a.1 = b.1 ∧ a.2 ≤ b.2))

/-- Lexicographic comparison on `(occupation, age_group, genre)` triples. -/
def tripleLE (a b : String × String × String) : Bool :=
  decide (a.1 < b.1 ∨ (a.1 = b.1 ∧ (a.2.1 < b.2.1 ∨ (a.2.1 = b.2.1 ∧ a.2.2 ≤ b.2.2))))

/-! ### Errors -/

inductive AnalyzerError where
  | datasetNotLoaded
  | targetNotFound (target : String)
  | rowNotFound
deriving DecidableEq, Repr

/-! ### Task 1: mean age by occupation -/

structure OccStat where
  occupation : String
  mean_age : ℚ
  user_count : ℕ
  std_dev : ℝ
  min_age : ℕ
  max_age : ℕ

open Classical in
/-- `analyze_mean_age_by_occupation`: group users by occupation,
aggregate `mean, count, std, min, max` (rounded to 2 decimals),
then sort by mean age descending (Python stable `list.sort`). -/
noncomputable def analyze_mean_age_by_occupation (users : List UserRow) : List OccStat :=
  let occs := sortedKeysBy strLE (users.map (·.occupation))
  let recs := occs.map (fun o =>
    let ages : List ℕ := (users.filter (fun u => decide (u.occupation = o))).map (·.age)
    let agesQ : List ℚ := ages.map (Nat.cast : ℕ → ℚ)
    { occupation := o
      mean_age := rnd 2 (listMean agesQ)
      user_count := ages.length
      std_dev := if ages.length < 2 then 0 else rndR 2 (Real.sqrt (sampleVar agesQ))
      min_age := minList ages
      max_age := maxList ages })
  recs.mergeSort (fun a b => decide (b.mean_age ≤ a.mean_age))

/-! ### Task 2: top rated movies -/

structure RatingAgg where
  movie_id : ℕ
  mean : ℚ
  count : ℕ
  std : ℝ

structure MovieStat where
  movie_id : ℕ
  title : String
  avg_rating : ℚ
  rating_count : ℕ
  rating_std : ℝ
  release_date : String

/-- The result-building loop of `analyze_top_rated_movies`: each grouped
stat is joined with the first movie row of the same id
(`movies_df[movies_df['movie_id'] == movie_id].iloc[0]`); a missing row
is a fatal lookup error. -/
noncomputable def joinMovieStats (movies : List MovieRow) :
    List RatingAgg → Except AnalyzerError (List MovieStat)
  | [] => .ok []
  | s :: t =>
    match movies.find? (fun m => decide (m.movie_id = s.movie_id)) with
    | none => .error .rowNotFound
    | some mv =>
      match joinMovieStats movies t with
      | .error e => .error e
      | .ok rest =>
        .ok ({ movie_id := s.movie_id, title := mv.title, avg_rating := s.mean,
               rating_count := s.count, rating_std := s.std,
               release_date := mv.release_date.getD "Unknown" } :: rest)

open Classical in
/-- `analyze_top_rated_movies`: group ratings by movie, aggregate
`mean, count, std` rounded to 3 decimals, keep movies with
`count >= min_ratings`, sort by mean descending, take `top_n`, and join
with movie title / release date (absent date reported as `"Unknown"`). -/
noncomputable def analyze_top_rated_movies (ratings : List RatingRow) (movies : List MovieRow)
    (min_ratings : ℕ) (top_n : ℕ) : Except AnalyzerError (List MovieStat) :=
  let ids := sortedKeysBy natLE (ratings.map (·.movie_id))
  let movie_stats : List RatingAgg := ids.map (fun i =>
    let vals := ((ratings.filter (fun r => decide (r.movie_id = i))).map (·.rating)).map
      (Int.cast : ℤ → ℚ)
    { movie_id := i
      mean := rnd 3 (listMean vals)
      count := vals.length
      std := if vals.length < 2 then 0 else rndR 3 (Real.sqrt (sampleVar vals)) })
  let qualified := movie_stats.filter (fun s => decide (min_ratings ≤ s.count))
  let top := (qualified.mergeSort (fun a b => decide (b.mean ≤ a.mean))).take top_n
  joinMovieStats movies top

/-! ### Task 3: top genres by occupation and age group -/

structure GenreStat where
  occupation : String
  age_group : String
  genre : String
  mean : ℚ
  count : ℕ
deriving DecidableEq, Repr

structure GenreEntry where
  genre : String
  avg_rating : ℚ
  rating_count : ℕ
deriving DecidableEq, Repr

structure GenreSegment where
  occupation : String
  age_group : String
  top_genres : List GenreEntry
  total_users : ℕ
deriving DecidableEq, Repr

/-- `analyze_top_genres_by_occupation_age`: tag users with age buckets,
inner-join ratings with users then with movie genres, group by
`(occupation, age_group, genre)` with mean/count rounded to 3 decimals,
then per `(occupation, age_group)` take the top 3 genres by mean rating
and attach the segment's user-row count; finally sort segments by
`(occupation, age_group)`. -/
def analyze_top_genres_by_occupation_age (ratings : List RatingRow) (users : List UserRow)
    (movie_genres : List MovieGenreRow) : List GenreSegment :=
  let usersAG := users.map (fun u => (u, get_age_group u.age))
  let withDemo := ratings.flatMap (fun r =>
    (usersAG.filter (fun p => decide (p.1.user_id = r.user_id))).map (fun p => (r, p)))
  let withGenres := withDemo.flatMap (fun x =>
    (movie_genres.filter (fun g => decide (g.movie_id = x.1.movie_id))).map (fun g => (x, g.genre)))
  let key3 : (RatingRow × (UserRow × String)) × String → String × String × String :=
    fun x => (x.1.2.1.occupation, x.1.2.2, x.2)
  let keys3 := sortedKeysBy tripleLE (withGenres.map key3)
  let genre_stats : List GenreStat := keys3.map (fun k =>
    let rs := withGenres.filter (fun x => decide (key3 x = k))
    { occupation := k.1, age_group := k.2.1, genre := k.2.2
      mean := rnd 3 (listMean (rs.map (fun x => (x.1.1.rating : ℚ))))
      count := rs.length })
  let segKeys := sortedKeysBy pairLE (genre_stats.map (fun s => (s.occupation, s.age_group)))
  let segments := segKeys.map (fun k =>
    let gs := genre_stats.filter (fun s => decide ((s.occupation, s.age_group) = k))
    let top := (gs.mergeSort (fun a b => decide (b.mean ≤ a.mean))).take 3
    { occupation := k.1, age_group := k.2
      top_genres := top.map (fun s =>
        { genre := s.genre, avg_rating := s.mean, rating_count := s.count })
      total_users := (usersAG.filter (fun p => decide (p.1.occupation = k.1 ∧ p.2 = k.2))).length })
  segments.mergeSort (fun a b => pairLE (a.occupation, a.age_group) (b.occupation, b.age_group))

/-! ### Task 4: similar movies (collaborative filtering) -/

/-- Case-sensitive character-list prefix test. -/
def leadsWith : List Char → List Char → Bool
  | [], _ => true
  | _ :: _, [] => false
  | p :: q, a :: t => p == a && leadsWith q t

/-- Substring test on character lists. -/
def hasSub : List Char → List Char → Bool
  | _, [] => true
  | [], _ :: _ => false
  | a :: t, p :: q => leadsWith (p :: q) (a :: t) || hasSub t (p :: q)

/-- `Series.str.contains(pat, case=False)` for a literal pattern:
case-insensitive substring match. -/
def titleContains (title pat : String) : Bool :=
  hasSub (title.toList.map Char.toLower) (pat.toList.map Char.toLower)

/-- Target selection of `find_similar_movies`: rows whose title contains
the target substring (case-insensitively); if none, retry with the fixed
fallback `'Usual Suspects'`; the target row is the first match
(`.iloc[0]`). -/
def findTargetRow (movies : List MovieRow) (target : String) : Option MovieRow :=
  let primary := movies.filter (fun m => titleContains m.title target)
  let chosen :=
    if primary.isEmpty then movies.filter (fun m => titleContains m.title "Usual Suspects")
    else primary
  chosen.head?

def meanFst (l : List (ℚ × ℚ)) : ℚ := listMean (l.map Prod.fst)

def meanSnd (l : List (ℚ × ℚ)) : ℚ := listMean (l.map Prod.snd)

/-- Centered sum of squares of the first components. -/
def sxx (l : List (ℚ × ℚ)) : ℚ := (l.map (fun p => (p.1 - meanFst l) ^ 2)).sum

/-- Centered sum of squares of the second components. -/
def syy (l : List (ℚ × ℚ)) : ℚ := (l.map (fun p => (p.2 - meanSnd l) ^ 2)).sum

/-- Centered sum of products. -/
def sxy (l : List (ℚ × ℚ)) : ℚ :=
  (l.map (fun p => (p.1 - meanFst l) * (p.2 - meanSnd l))).sum

/-- `np.corrcoef(x, y)[0, 1]` with the analyzer's NaN fallback: when the
variance of either vector is zero the coefficient is NaN and the code
replaces it by `0.0`. -/
noncomputable def pearson (l : List (ℚ × ℚ)) : ℝ :=
  if sxx l = 0 ∨ syy l = 0 then 0
  else (sxy l : ℝ) / Real.sqrt ((sxx l : ℝ) * (syy l : ℝ))

/-- `similarity_score = (correlation + 1) / 2`. -/
noncomputable def similarityScore (l : List (ℚ × ℚ)) : ℝ := (pearson l + 1) / 2

/-- The co-occurrence gate: the loop `continue`s when
`cooccurrence_count < cooccurrence_threshold`. -/
def cooccurrence_kept (threshold c : ℕ) : Bool := !(decide (c < threshold))

/-- The similarity gate: a candidate is stored when
`similarity_score >= similarity_threshold`. -/
def similarity_kept (threshold : ℚ) (sim : ℝ) : Prop := (threshold : ℝ) ≤ sim

/-- One entry of the `movie_similarities` dictionary. -/
structure SimEntry where
  movie_id : ℕ
  similarity_score : ℝ
  cooccurrence_count : ℕ
  correlation : ℝ

structure SimRecord where
  movie_id : ℕ
  title : String
  similarity_score : ℝ
  cooccurrence_count : ℕ
  correlation : ℝ
  release_date : String

/-- Result building of `find_similar_movies`: join each stored entry
with the first movie row of the same id. -/
noncomputable def joinSimRecords (movies : List MovieRow) :
    List SimEntry → Except AnalyzerError (List SimRecord)
  | [] => .ok []
  | s :: t =>
    match movies.find? (fun m => decide (m.movie_id = s.movie_id)) with
    | none => .error .rowNotFound
    | some mv =>
      match joinSimRecords movies t with
      | .error e => .error e
      | .ok rest =>
        .ok ({ movie_id := s.movie_id, title := mv.title,
               similarity_score := s.similarity_score,
               cooccurrence_count := s.cooccurrence_count, correlation := s.correlation,
               release_date := mv.release_date.getD "Unknown" } :: rest)

open Classical in
/-- Body of the per-candidate loop of `find_similar_movies`. -/
noncomputable def evalCandidate (targetRatings : List RatingRow) (targetUsers : List ℕ)
    (corated : List RatingRow) (coThr : ℕ) (simThr : ℚ) (m : ℕ) : Option SimEntry :=
  let movieRatings := corated.filter (fun r => decide (r.movie_id = m))
  let common := ((movieRatings.map (·.user_id)).dedup).filter (fun u => decide (u ∈ targetUsers))
  let c := common.length
  if cooccurrence_kept coThr c then
    let tc := targetRatings.filter (fun r => decide (r.user_id ∈ common))
    let mc := movieRatings.filter (fun r => decide (r.user_id ∈ common))
    let merged := tc.flatMap (fun r1 =>
      (mc.filter (fun r2 => decide (r2.user_id = r1.user_id))).map
        (fun r2 => ((r1.rating : ℚ), (r2.rating : ℚ))))
    if merged.length < 2 then none
    else
      if similarity_kept simThr (similarityScore merged) then
        some { movie_id := m, similarity_score := similarityScore merged,
               cooccurrence_count := c, correlation := pearson merged }
      else none
  else none

open Classical in
/-- `find_similar_movies`: select the target row, gather candidate
movies co-rated by the target's raters (grouped by movie id in
ascending order), evaluate each candidate, sort stored entries by
similarity descending (stable), keep `top_n`, and join with movie
info. -/
noncomputable def find_similar_movies (ratings : List RatingRow) (movies : List MovieRow)
    (target_movie : String) (similarity_threshold : ℚ) (cooccurrence_threshold : ℕ)
    (top_n : ℕ) : Except AnalyzerError (List SimRecord) :=
  match findTargetRow movies target_movie with
  | none => .error (.targetNotFound target_movie)
  | some tm =>
    let tid := tm.movie_id
    let targetRatings : List RatingRow := ratings.filter (fun r => decide (r.movie_id = tid))
    let targetUsers : List ℕ := (targetRatings.map (·.user_id)).dedup
    let corated := (ratings.filter (fun r => decide (r.user_id ∈ targetUsers))).filter
      (fun r => decide (r.movie_id ≠ tid))
    let candidates := sortedKeysBy natLE (corated.map (·.movie_id))
    let sims := candidates.filterMap
      (evalCandidate targetRatings targetUsers corated cooccurrence_threshold
        similarity_threshold)
    let sorted :=
      (sims.mergeSort (fun a b => decide (b.similarity_score ≤ a.similarity_score))).take top_n
    joinSimRecords movies sorted

/-! ### Loader state (`movielens_data_loader` module globals) -/

structure Dataset where
  ratings : List RatingRow
  users : List UserRow
  movies : List MovieRow
  genres : List (String × ℤ)
  movie_genres : List MovieGenreRow

/-- The module-level globals: `none` before `download_and_load_data`
succeeds. -/
structure LoaderState where
  loaded : Option Dataset

/-- `get_data`: returns the loaded tables, or reports
"Data not loaded. Call download_and_load_data() first." -/
def get_data (s : LoaderState) : Except AnalyzerError Dataset :=
  match s.loaded with
  | some d => .ok d
  | none => .error .datasetNotLoaded

/-- Entry point of task 1: on a missing dataset the analyzer logs
"Data not loaded yet. Loading data first...", calls
`download_and_load_data()` (whose parsed result is `disk`), and
proceeds with the freshly loaded tables. -/
noncomputable def analyze_mean_age_by_occupation_op (s : LoaderState) (disk : Dataset) :
    LoaderState × Except AnalyzerError (List OccStat) :=
  match get_data s with
  | .ok d => (s, .ok (analyze_mean_age_by_occupation d.users))
  | .error _ => ({ loaded := some disk }, .ok (analyze_mean_age_by_occupation disk.users))

/-- Entry point of task 2 (same silent-load preamble). -/
noncomputable def analyze_top_rated_movies_op (s : LoaderState) (disk : Dataset)
    (min_ratings top_n : ℕ) : LoaderState × Except AnalyzerError (List MovieStat) :=
  match get_data s with
  | .ok d => (s, analyze_top_rated_movies d.ratings d.movies min_ratings top_n)
  | .error _ =>
    ({ loaded := some disk }, analyze_top_rated_movies disk.ratings disk.movies min_ratings top_n)

/-- Entry point of task 3 (same silent-load preamble). -/
def analyze_top_genres_by_occupation_age_op (s : LoaderState) (disk : Dataset) :
    LoaderState × Except AnalyzerError (List GenreSegment) :=
  match get_data s with
  | .ok d => (s, .ok (analyze_top_genres_by_occupation_age d.ratings d.users d.movie_genres))
  | .error _ =>
    ({ loaded := some disk },
      .ok (analyze_top_genres_by_occupation_age disk.ratings disk.users disk.movie_genres))

/-- Entry point of task 4 (same silent-load preamble). -/
noncomputable def find_similar_movies_op (s : LoaderState) (disk : Dataset) (target : String)
    (simThr : ℚ) (coThr : ℕ) (top_n : ℕ) :
    LoaderState × Except AnalyzerError (List SimRecord) :=
  match get_data s with
  | .ok d => (s, find_similar_movies d.ratings d.movies target simThr coThr top_n)
  | .error _ =>
    ({ loaded := some disk },
      find_similar_movies disk.ratings disk.movies target simThr coThr top_n)

/-! ### Concrete datasets used by witnesses and counterexamples -/

/-- One engineer aged 25. -/
def u7 : List UserRow := [⟨1, 25, "M", "engineer", "00000"⟩]

/-- Two engineers aged 25 and 26. -/
def usersTwo : List UserRow := [⟨1, 25, "M", "engineer", "00000"⟩, ⟨2, 26, "F", "engineer", "00000"⟩]

/-- A dataset whose Users table is `u7`. -/
def d0 : Dataset := ⟨[], u7, [], [], []⟩

def w6ratings : List RatingRow := [⟨1, 1, 5, 0⟩]

def w6movies : List MovieRow := [⟨1, "Alpha", none⟩]

/-- The single record produced by the rating aggregation on the witness
dataset. -/
noncomputable def w6rec : MovieStat :=
  { movie_id := 1, title := "Alpha", avg_rating := 5, rating_count := 1, rating_std := 0,
    release_date := "Unknown" }

def w4users : List UserRow := [⟨1, 22, "M", "artist", "00000"⟩]

def w4ratings : List RatingRow := [⟨1, 1, 4, 0⟩]

def w4genres : List MovieGenreRow := [⟨1, "Drama"⟩]

/-- The single segment produced by the genre ranking on the witness
dataset. -/
def w10users : List UserRow :=
  [⟨1, 22, "M", "artist", "00000"⟩, ⟨2, 22, "F", "artist", "00000"⟩]

/-- The single segment produced by the genre ranking on the witness
dataset. -/
def w4seg : GenreSegment :=
  { occupation := "artist", age_group := "20-25",
    top_genres := [{ genre := "Drama", avg_rating := 4, rating_count := 1 }],
    total_users := 1 }

def w3movies : List MovieRow := [⟨1, "alpha", some "01-Jan-1995"⟩, ⟨2, "beta", some "01-Jan-1995"⟩]

/-- Two movies both matching the substring "alph". -/
def w9a : List MovieRow := [⟨1, "alpha", none⟩, ⟨2, "alphabet", none⟩]

/-- Two movies both matching the fallback substring only. -/
def w9b : List MovieRow := [⟨1, "usual suspects i", none⟩, ⟨2, "The Usual Suspects", none⟩]

def w3ratings : List RatingRow := [⟨1, 1, 5, 0⟩, ⟨2, 1, 5, 0⟩, ⟨1, 2, 3, 0⟩, ⟨2, 2, 4, 0⟩]

/-- The single record produced by the similarity search on the witness
dataset. -/
noncomputable def w3rec : SimRecord :=
  { movie_id := 2, title := "beta", similarity_score := 1/2, cooccurrence_count := 2,
    correlation := 0, release_date := "01-Jan-1995" }

end MovieLens

open MovieLens

/-- C8: the age-bucket function maps every age to exactly one of five
labels by disjoint ranges: `[20,25) → "20-25"`, `[25,35) → "25-35"`,
`[35,45) → "35-45"`, `[45,∞) → "45+"`, and everything below 20 to
`"Under 20"`. -/
theorem C8_age_buckets (age : ℕ) :
    (get_age_group age = "20-25" ↔ 20 ≤ age ∧ age < 25)
    ∧ (get_age_group age = "25-35" ↔ 25 ≤ age ∧ age < 35)
    ∧ (get_age_group age = "35-45" ↔ 35 ≤ age ∧ age < 45)
    ∧ (get_age_group age = "45+" ↔ 45 ≤ age)
    ∧ (get_age_group age = "Under 20" ↔ age < 20) := by
  unfold get_age_group
  split_ifs with h1 h2 h3 h4 <;> simp_all <;> omega

/-! ### Helper lemmas -/

namespace MovieLens

/-- Evaluation of the demographic analysis on the one-user table. -/
theorem eval_u7 :
    analyze_mean_age_by_occupation u7 =
      [{ occupation := "engineer", mean_age := 25, user_count := 1, std_dev := 0,
         min_age := 25, max_age := 25 }] := by
  simp only [analyze_mean_age_by_occupation, u7, sortedKeysBy, strLE, List.map,
    List.dedup_cons_of_not_mem, List.dedup_nil, List.mergeSort_singleton, List.filter,
    decide_eq_true_eq, List.not_mem_nil, not_false_iff]
  norm_num [rnd, roundHE, listMean, minList, maxList, List.mergeSort_singleton]

end MovieLens

/-! ### C1: behaviour of analyses invoked before a load -/

/-- C1 counterexample: with the loader state unloaded (`none`), the
demographic analysis does NOT fail with the dataset-not-loaded error; it
silently loads the dataset `d0` and returns results computed from it. -/
theorem C1_counterexample :
    (analyze_mean_age_by_occupation_op ⟨none⟩ d0).2 =
        .ok [{ occupation := "engineer", mean_age := 25, user_count := 1, std_dev := 0,
               min_age := 25, max_age := 25 }]
    ∧ (analyze_mean_age_by_occupation_op ⟨none⟩ d0).2 ≠ .error .datasetNotLoaded
    ∧ (analyze_mean_age_by_occupation_op ⟨none⟩ d0).1 = ⟨some d0⟩ := by
  refine ⟨?_, ?_, rfl⟩
  · show Except.ok (analyze_mean_age_by_occupation u7) = _
    rw [eval_u7]
  · show Except.ok (analyze_mean_age_by_occupation u7) ≠ _
    simp

/-- C1 amended: invoking any of the four analyses before a successful
load does not surface the dataset-not-loaded error; each analysis
silently triggers a load (the state afterwards holds the freshly loaded
dataset) and returns the results computed from that implicitly loaded
dataset.  Only a direct `get_data` call reports the error. -/
theorem C1_amended_silent_load (disk : Dataset) (minR topN : ℕ) (target : String)
    (θ : ℚ) (coThr topN2 : ℕ) :
    get_data ⟨none⟩ = .error .datasetNotLoaded
    ∧ analyze_mean_age_by_occupation_op ⟨none⟩ disk =
        (⟨some disk⟩, .ok (analyze_mean_age_by_occupation disk.users))
    ∧ analyze_top_rated_movies_op ⟨none⟩ disk minR topN =
        (⟨some disk⟩, analyze_top_rated_movies disk.ratings disk.movies minR topN)
    ∧ analyze_top_genres_by_occupation_age_op ⟨none⟩ disk =
        (⟨some disk⟩,
          .ok (analyze_top_genres_by_occupation_age disk.ratings disk.users disk.movie_genres))
    ∧ find_similar_movies_op ⟨none⟩ disk target θ coThr topN2 =
        (⟨some disk⟩, find_similar_movies disk.ratings disk.movies target θ coThr topN2) :=
  ⟨rfl, rfl, rfl, rfl, rfl⟩

/-! ### C2: zero variance gives neutral correlation -/

namespace MovieLens

/-- Mean of a nonempty constant column. -/
theorem listMean_const {l : List ℚ} {c : ℚ} (h0 : l ≠ []) (h : ∀ x ∈ l, x = c) :
    listMean l = c := by
  have hrep : l = List.replicate l.length c := List.eq_replicate_iff.mpr ⟨rfl, h⟩
  have hs : l.sum = l.length * c := by
    conv_lhs => rw [hrep]
    simp [List.sum_replicate, nsmul_eq_mul]
  have hn : (l.length : ℚ) ≠ 0 := by
    have := List.length_pos.mpr h0
    positivity
  rw [listMean, hs]
  field_simp

/-- Constant first components give zero centered sum of squares. -/
theorem sxx_of_const {l : List (ℚ × ℚ)} {c : ℚ} (h : ∀ p ∈ l, p.1 = c) : sxx l = 0 := by
  cases l with
  | nil => simp [sxx]
  | cons q t =>
    have hm : meanFst (q :: t) = c := by
      apply listMean_const (by simp)
      intro x hx
      rcases List.mem_map.mp hx with ⟨p, hp, rfl⟩
      exact h p hp
    apply List.sum_eq_zero
    intro x hx
    rcases List.mem_map.mp hx with ⟨p, hp, rfl⟩
    rw [h p hp, hm]
    ring

/-- Constant second components give zero centered sum of squares. -/
theorem syy_of_const {l : List (ℚ × ℚ)} {c : ℚ} (h : ∀ p ∈ l, p.2 = c) : syy l = 0 := by
  cases l with
  | nil => simp [syy]
  | cons q t =>
    have hm : meanSnd (q :: t) = c := by
      apply listMean_const (by simp)
      intro x hx
      rcases List.mem_map.mp hx with ⟨p, hp, rfl⟩
      exact h p hp
    apply List.sum_eq_zero
    intro x hx
    rcases List.mem_map.mp hx with ⟨p, hp, rfl⟩
    rw [h p hp, hm]
    ring

end MovieLens

/-- C2: whenever a candidate's paired rating vectors have zero variance
in either vector — in particular when the target's ratings over the
common users are all equal — the computed correlation is `0` and the
similarity score is exactly `1/2`, independent of the other vector (the
computation is total, so no error arises). -/
theorem C2_zero_variance_neutral (l : List (ℚ × ℚ)) :
    (sxx l = 0 ∨ syy l = 0 → pearson l = 0 ∧ similarityScore l = 1/2)
    ∧ (∀ c : ℚ, (∀ p ∈ l, p.1 = c) → sxx l = 0)
    ∧ (∀ c : ℚ, (∀ p ∈ l, p.2 = c) → syy l = 0) := by
  refine ⟨fun h => ?_, fun c hc => sxx_of_const hc, fun c hc => syy_of_const hc⟩
  have hp : pearson l = 0 := by rw [pearson, if_pos h]
  exact ⟨hp, by rw [similarityScore, hp]; norm_num⟩

/-- Witness for C2 at the concrete pair list `[(5,3), (5,4)]` (the
target vector is constantly 5). -/
theorem C2_witness :
    pearson [((5 : ℚ), (3 : ℚ)), (5, 4)] = 0
    ∧ similarityScore [((5 : ℚ), (3 : ℚ)), (5, 4)] = 1/2
    ∧ sxx [((5 : ℚ), (3 : ℚ)), (5, 4)] = 0 := by
  have h := C2_zero_variance_neutral [((5 : ℚ), (3 : ℚ)), (5, 4)]
  have hx : sxx [((5 : ℚ), (3 : ℚ)), (5, 4)] = 0 := by
    apply h.2.1 5
    intro p hp
    simp only [List.mem_cons, List.not_mem_nil, or_false] at hp
    rcases hp with rfl | rfl <;> rfl
  exact ⟨(h.1 (Or.inl hx)).1, (h.1 (Or.inl hx)).2, hx⟩

/-! ### Sorted-key and stable-sort lemmas -/

namespace MovieLens

open scoped List

theorem mem_sortedKeysBy [DecidableEq κ] (le : κ → κ → Bool) (l : List κ) (a : κ) :
    a ∈ sortedKeysBy le l ↔ a ∈ l := by
  simp [sortedKeysBy]

theorem sortedKeysBy_nodup [DecidableEq κ] (le : κ → κ → Bool) (l : List κ) :
    (sortedKeysBy le l).Nodup :=
  ((l.dedup.mergeSort_perm le).nodup_iff).mpr l.nodup_dedup

theorem sortedKeysBy_pairwise [DecidableEq κ] (le : κ → κ → Bool)
    (htrans : ∀ a b c : κ, le a b → le b c → le a c)
    (htotal : ∀ a b : κ, le a b || le b a) (l : List κ) :
    (sortedKeysBy le l).Pairwise (fun a b => le a b = true) :=
  List.sorted_mergeSort htrans htotal l.dedup

theorem sortedKeysBy_pairwise_ne [DecidableEq κ] (le : κ → κ → Bool)
    (htrans : ∀ a b c : κ, le a b → le b c → le a c)
    (htotal : ∀ a b : κ, le a b || le b a) (l : List κ) :
    (sortedKeysBy le l).Pairwise (fun a b => le a b = true ∧ a ≠ b) :=
  (sortedKeysBy_pairwise le htrans htotal l).and (sortedKeysBy_nodup le l)

/-- Two distinct members of a list occur in one of the two orders. -/
theorem pair_sublist_of_mem {α : Type _} {l : List α} {a b : α}
    (ha : a ∈ l) (hb : b ∈ l) (hne : a ≠ b) : [a, b] <+ l ∨ [b, a] <+ l := by
  induction l with
  | nil => cases ha
  | cons x t ih =>
    rcases List.mem_cons.mp ha with rfl | ha2
    · rcases List.mem_cons.mp hb with rfl | hb2
      · exact absurd rfl hne
      · exact Or.inl ((List.singleton_sublist.mpr hb2).cons₂ _)
    · rcases List.mem_cons.mp hb with rfl | hb2
      · exact Or.inr ((List.singleton_sublist.mpr ha2).cons₂ _)
      · rcases ih ha2 hb2 with h | h
        · exact Or.inl (h.cons _)
        · exact Or.inr (h.cons _)

/-- In a duplicate-free list the two pair orders cannot both occur. -/
theorem sublist_pair_antisymm {α : Type _} {l : List α} (hl : l.Nodup) {a b : α}
    (h1 : [a, b] <+ l) (h2 : [b, a] <+ l) : a = b := by
  induction l with
  | nil => simp at h1
  | cons x t ih =>
    cases h1 with
    | cons _ h1t =>
      cases h2 with
      | cons _ h2t => exact ih hl.of_cons h1t h2t
      | cons₂ _ h2t =>
        exact absurd (h1t.subset (by simp)) hl.not_mem
    | cons₂ _ h1t =>
      cases h2 with
      | cons _ h2t =>
        exact absurd (h2t.subset (by simp)) hl.not_mem
      | cons₂ _ h2t => rfl

/-- Stability of the descending mean sort: over a list whose keys are
strictly increasing, equal means keep the ascending key order. -/
theorem mergeSort_desc_stable {α : Type _} (mean : α → ℚ) (key : α → String) (l : List α)
    (hkeys : l.Pairwise (fun a b => key a < key b)) :
    (l.mergeSort (fun a b => decide (mean b ≤ mean a))).Pairwise
      (fun a b => mean b ≤ mean a ∧ (mean a = mean b → key a < key b)) := by
  have htrans : ∀ a b c : α, (decide (mean b ≤ mean a)) → (decide (mean c ≤ mean b)) →
      (decide (mean c ≤ mean a)) := by
    intro a b c h1 h2
    simp only [decide_eq_true_eq] at h1 h2 ⊢
    exact le_trans h2 h1
  have htotal : ∀ a b : α, (decide (mean b ≤ mean a)) || (decide (mean a ≤ mean b)) := by
    intro a b
    simp only [Bool.or_eq_true, decide_eq_true_eq]
    exact le_total _ _
  have hnodup : l.Nodup := by
    refine List.Pairwise.imp ?_ hkeys
    intro a b hab
    exact fun h => absurd (congrArg key h) (ne_of_lt hab)
  have hsorted := List.sorted_mergeSort htrans htotal l
  have hout_nodup : (l.mergeSort (fun a b => decide (mean b ≤ mean a))).Nodup :=
    ((l.mergeSort_perm _).nodup_iff).mpr hnodup
  rw [List.pairwise_iff_forall_sublist]
  intro a b hab
  have h1 : mean b ≤ mean a := by
    have := List.pairwise_iff_forall_sublist.mp hsorted hab
    simpa using this
  refine ⟨h1, fun heq => ?_⟩
  have hne : a ≠ b := by
    rintro rfl
    exact (List.nodup_iff_sublist.mp hout_nodup a) hab
  have ha : a ∈ l := by
    have h0 : a ∈ ([a, b] : List α) := by simp
    have h2 := hab.subset h0
    rwa [List.mem_mergeSort] at h2
  have hb : b ∈ l := by
    have h0 : b ∈ ([a, b] : List α) := by simp
    have h2 := hab.subset h0
    rwa [List.mem_mergeSort] at h2
  rcases pair_sublist_of_mem ha hb hne with h | h
  · exact List.pairwise_iff_forall_sublist.mp hkeys h
  · exfalso
    have hle : (decide (mean a ≤ mean b) : Bool) = true := by
      simp [heq]
    have := List.pair_sublist_mergeSort htrans htotal hle h
    exact hne (sublist_pair_antisymm hout_nodup hab this)

end MovieLens

/-- C5: the demographic output is ordered by mean age descending, and
occupations with exactly equal mean age appear in the grouping's
first-seen order, which is alphabetically ascending by occupation
name (pandas groups keys in ascending order and Python's sort is
stable). -/
theorem C5_demographic_tie_break (users : List UserRow) :
    (analyze_mean_age_by_occupation users).Pairwise
      (fun a b => b.mean_age ≤ a.mean_age ∧
        (a.mean_age = b.mean_age → a.occupation < b.occupation)) := by
  simp only [analyze_mean_age_by_occupation]
  apply mergeSort_desc_stable (fun s : OccStat => s.mean_age) (fun s : OccStat => s.occupation)
  rw [List.pairwise_map]
  have hp := sortedKeysBy_pairwise_ne strLE ?_ ?_ (users.map (fun u => u.occupation))
  · refine hp.imp ?_
    intro a b hab
    rcases hab with ⟨hle, hne⟩
    simp only [strLE, decide_eq_true_eq] at hle
    exact lt_of_le_of_ne hle hne
  · intro a b c h1 h2
    simp only [strLE, decide_eq_true_eq] at h1 h2 ⊢
    exact le_trans h1 h2
  · intro a b
    simp only [strLE, Bool.or_eq_true, decide_eq_true_eq]
    exact le_total _ _

/-! ### Cauchy-Schwarz and correlation bounds -/

namespace MovieLens

/-- Discrete Cauchy-Schwarz over a list of pairs. -/
theorem list_inner_sq_le (l : List (ℚ × ℚ)) :
    ((l.map (fun p => p.1 * p.2)).sum) ^ 2 ≤
      ((l.map (fun p => p.1 ^ 2)).sum) * ((l.map (fun p => p.2 ^ 2)).sum) := by
  induction l with
  | nil => simp
  | cons q t ih =>
    have hX : 0 ≤ (t.map (fun p => p.1 ^ 2)).sum := by
      apply List.sum_nonneg
      intro x hx
      rcases List.mem_map.mp hx with ⟨p, _, rfl⟩
      positivity
    have hY : 0 ≤ (t.map (fun p => p.2 ^ 2)).sum := by
      apply List.sum_nonneg
      intro x hx
      rcases List.mem_map.mp hx with ⟨p, _, rfl⟩
      positivity
    simp only [List.map_cons, List.sum_cons]
    set S := (t.map (fun p => p.1 * p.2)).sum with hS
    set X := (t.map (fun p => p.1 ^ 2)).sum with hXdef
    set Y := (t.map (fun p => p.2 ^ 2)).sum with hYdef
    rcases eq_or_lt_of_le hY with hY0 | hYpos
    · have hS2 : S ^ 2 ≤ 0 := by nlinarith
      have hS0 : S = 0 := by
        have h0 : S ^ 2 = 0 := le_antisymm hS2 (sq_nonneg S)
        exact pow_eq_zero_iff (by norm_num) |>.mp h0
      rw [hS0, ← hY0]
      nlinarith [mul_nonneg hX (sq_nonneg q.2)]
    · nlinarith [sq_nonneg (q.1 * Y - q.2 * S), mul_nonneg hY (by nlinarith : (0:ℚ) ≤ X * Y - S ^ 2),
        mul_nonneg (sq_nonneg q.2) (by nlinarith : (0:ℚ) ≤ X * Y - S ^ 2), hYpos]

theorem sxx_nonneg (l : List (ℚ × ℚ)) : 0 ≤ sxx l := by
  apply List.sum_nonneg
  intro x hx
  rcases List.mem_map.mp hx with ⟨p, _, rfl⟩
  positivity

theorem syy_nonneg (l : List (ℚ × ℚ)) : 0 ≤ syy l := by
  apply List.sum_nonneg
  intro x hx
  rcases List.mem_map.mp hx with ⟨p, _, rfl⟩
  positivity

/-- Cauchy-Schwarz for the centered sums. -/
theorem sq_sxy_le (l : List (ℚ × ℚ)) : (sxy l) ^ 2 ≤ sxx l * syy l := by
  have h := list_inner_sq_le (l.map (fun p => (p.1 - meanFst l, p.2 - meanSnd l)))
  simpa [List.map_map, Function.comp, sxx, syy, sxy] using h

/-- The Pearson coefficient, as computed by the analyzer, lies in
`[-1, 1]`. -/
theorem pearson_bounds (l : List (ℚ × ℚ)) : -1 ≤ pearson l ∧ pearson l ≤ 1 := by
  rw [pearson]
  split_ifs with h
  · norm_num
  · push_neg at h
    obtain ⟨hx0, hy0⟩ := h
    have hx : (0 : ℚ) < sxx l := lt_of_le_of_ne (sxx_nonneg l) (Ne.symm hx0)
    have hy : (0 : ℚ) < syy l := lt_of_le_of_ne (syy_nonneg l) (Ne.symm hy0)
    have hprod : (0 : ℝ) < (sxx l : ℝ) * (syy l : ℝ) := by
      have hx2 : (0 : ℝ) < (sxx l : ℝ) := by exact_mod_cast hx
      have hy2 : (0 : ℝ) < (syy l : ℝ) := by exact_mod_cast hy
      positivity
    have hsq : ((sxy l : ℝ)) ^ 2 ≤ (sxx l : ℝ) * (syy l : ℝ) := by
      exact_mod_cast sq_sxy_le l
    have hd : 0 < Real.sqrt ((sxx l : ℝ) * (syy l : ℝ)) := Real.sqrt_pos.mpr hprod
    have habs : |(sxy l : ℝ)| ≤ Real.sqrt ((sxx l : ℝ) * (syy l : ℝ)) := by
      rw [← Real.sqrt_sq_eq_abs]
      exact Real.sqrt_le_sqrt hsq
    have hq : |(sxy l : ℝ) / Real.sqrt ((sxx l : ℝ) * (syy l : ℝ))| ≤ 1 := by
      rw [abs_div, abs_of_pos hd]
      exact (div_le_one hd).mpr habs
    exact abs_le.mp hq

/-- The similarity score, as computed by the analyzer, lies in `[0, 1]`. -/
theorem similarityScore_bounds (l : List (ℚ × ℚ)) :
    0 ≤ similarityScore l ∧ similarityScore l ≤ 1 := by
  obtain ⟨h1, h2⟩ := pearson_bounds l
  constructor <;> (rw [similarityScore]; linarith)

end MovieLens

/-! ### Dissection of the similarity pipeline -/

namespace MovieLens

/-- Members of the right list of a `Forall₂` have a related member on
the left. -/
theorem forall₂_mem_right {α β : Type _} {R : α → β → Prop} {l₁ : List α} {l₂ : List β}
    (h : List.Forall₂ R l₁ l₂) {b : β} (hb : b ∈ l₂) : ∃ a ∈ l₁, R a b := by
  induction h with
  | nil => cases hb
  | cons hr _ ih =>
    rcases List.mem_cons.mp hb with rfl | hb2
    · exact ⟨_, by simp, hr⟩
    · rcases ih hb2 with ⟨a, ha, hA⟩
      exact ⟨a, by simp [ha], hA⟩

/-- What a successful `joinSimRecords` guarantees, entrywise. -/
theorem joinSimRecords_ok {movies : List MovieRow} :
    ∀ {l : List SimEntry} {res : List SimRecord}, joinSimRecords movies l = .ok res →
      List.Forall₂ (fun (s : SimEntry) (r : SimRecord) =>
        r.movie_id = s.movie_id ∧ r.similarity_score = s.similarity_score ∧
        r.cooccurrence_count = s.cooccurrence_count ∧ r.correlation = s.correlation ∧
        ∃ mv, movies.find? (fun m => decide (m.movie_id = s.movie_id)) = some mv ∧
          r.title = mv.title ∧ r.release_date = mv.release_date.getD "Unknown") l res
  | [], res, h => by
    simp only [joinSimRecords] at h
    cases h
    exact List.Forall₂.nil
  | s :: t, res, h => by
    simp only [joinSimRecords] at h
    split at h
    · exact absurd h (by simp)
    · rename_i mv hmv
      split at h
      · exact absurd h (by simp)
      · rename_i rest hrest
        cases h
        exact List.Forall₂.cons ⟨rfl, rfl, rfl, rfl, mv, hmv, rfl, rfl⟩
          (joinSimRecords_ok hrest)

/-- What a stored candidate entry guarantees. -/
theorem evalCandidate_some {tr : List RatingRow} {tu : List ℕ} {co : List RatingRow}
    {coThr : ℕ} {simThr : ℚ} {m : ℕ} {x : SimEntry}
    (h : evalCandidate tr tu co coThr simThr m = some x) :
    x.movie_id = m ∧ coThr ≤ x.cooccurrence_count ∧ (simThr : ℝ) ≤ x.similarity_score ∧
    ∃ merged : List (ℚ × ℚ), x.similarity_score = similarityScore merged ∧
      x.correlation = pearson merged := by
  simp only [evalCandidate] at h
  split at h
  case isTrue hkept =>
    split at h
    case isTrue => exact absurd h (by simp)
    case isFalse =>
      split at h
      case isTrue hsim =>
        cases h
        refine ⟨rfl, ?_, hsim, _, rfl, rfl⟩
        simpa [cooccurrence_kept, Nat.not_lt] using hkept
      case isFalse => exact absurd h (by simp)
  case isFalse => exact absurd h (by simp)

end MovieLens

/-- C3: every record returned by the similarity search has
`similarity_score ∈ [0,1]`, `correlation ∈ [-1,1]`,
`cooccurrence_count ≥ cooccurrence_threshold` and
`similarity_score ≥ similarity_threshold`; moreover both gates are
inclusive: a co-occurrence count exactly equal to the threshold passes
the co-occurrence gate, and a similarity exactly equal to the threshold
passes the similarity gate. -/
theorem C3_similarity_numeric_contract (ratings : List RatingRow) (movies : List MovieRow)
    (target : String) (θ : ℚ) (coThr topN : ℕ) (res : List SimRecord)
    (h : find_similar_movies ratings movies target θ coThr topN = .ok res) :
    (∀ r ∈ res, 0 ≤ r.similarity_score ∧ r.similarity_score ≤ 1
      ∧ -1 ≤ r.correlation ∧ r.correlation ≤ 1
      ∧ coThr ≤ r.cooccurrence_count ∧ (θ : ℝ) ≤ r.similarity_score)
    ∧ (∀ c : ℕ, cooccurrence_kept c c = true)
    ∧ (∀ q : ℚ, similarity_kept q (q : ℝ)) := by
  refine ⟨?_, fun c => by simp [cooccurrence_kept], fun q => le_refl _⟩
  intro r hr
  simp only [find_similar_movies] at h
  split at h
  · exact absurd h (by simp)
  · have hcorr := joinSimRecords_ok h
    obtain ⟨s, hs, hR⟩ := forall₂_mem_right hcorr hr
    obtain ⟨hid, hsim, hcnt, hcorr2, -⟩ := hR
    have hs2 : s ∈ _ := List.mem_of_mem_take hs
    rw [List.mem_mergeSort] at hs2
    obtain ⟨m, -, he⟩ := List.mem_filterMap.mp hs2
    obtain ⟨-, hco, hθ, merged, hsimeq, hcorreq⟩ := evalCandidate_some he
    obtain ⟨hp1, hp2⟩ := pearson_bounds merged
    obtain ⟨hq1, hq2⟩ := similarityScore_bounds merged
    rw [hsim, hcnt, hcorr2, hsimeq, hcorreq]
    exact ⟨hq1, hq2, hp1, hp2, hco, hsimeq ▸ hθ⟩

/-! ### Concrete evaluation of the similarity pipeline -/

namespace MovieLens

theorem findTargetRow_w3 :
    findTargetRow w3movies "alph" = some ⟨1, "alpha", some "01-Jan-1995"⟩ := by
  decide

theorem sxx_w3 : sxx [((5 : ℚ), (3 : ℚ)), ((5 : ℚ), (4 : ℚ))] = 0 := by
  norm_num [sxx, meanFst, listMean]

theorem pearson_w3 : pearson [((5 : ℚ), (3 : ℚ)), ((5 : ℚ), (4 : ℚ))] = 0 := by
  rw [pearson, if_pos (Or.inl sxx_w3)]

theorem similarityScore_w3 :
    similarityScore [((5 : ℚ), (3 : ℚ)), ((5 : ℚ), (4 : ℚ))] = 1/2 := by
  rw [similarityScore, pearson_w3]
  norm_num

theorem evalCandidate_w3 :
    evalCandidate [⟨1, 1, 5, 0⟩, ⟨2, 1, 5, 0⟩] [1, 2] [⟨1, 2, 3, 0⟩, ⟨2, 2, 4, 0⟩]
      2 (1/2) 2 = some ⟨2, 1/2, 2, 0⟩ := by
  simp only [evalCandidate]
  norm_num [List.filter, List.dedup, cooccurrence_kept, List.flatMap]
  refine ⟨?_, similarityScore_w3, pearson_w3⟩
  show ((1/2 : ℚ) : ℝ) ≤ similarityScore [((5 : ℚ), (3 : ℚ)), ((5 : ℚ), (4 : ℚ))]
  rw [similarityScore_w3]
  norm_num

end MovieLens

namespace MovieLens

/-- Full evaluation of the similarity search on the witness dataset:
one candidate (movie 2), zero-variance target vector, similarity
exactly at the inclusive threshold `1/2`. -/
theorem eval_w3 :
    find_similar_movies w3ratings w3movies "alph" (1/2) 2 10 = .ok [w3rec] := by
  simp only [find_similar_movies, findTargetRow_w3]
  norm_num [w3ratings, w3movies, List.filter, List.dedup, sortedKeysBy,
    List.mergeSort_singleton, List.filterMap, evalCandidate_w3, joinSimRecords,
    List.find?, w3rec]

end MovieLens

/-- Witness for C3: the numeric contract instantiated on the witness
dataset, whose single result sits exactly at both inclusive
thresholds. -/
theorem C3_witness :
    (0 ≤ w3rec.similarity_score ∧ w3rec.similarity_score ≤ 1
      ∧ -1 ≤ w3rec.correlation ∧ w3rec.correlation ≤ 1
      ∧ 2 ≤ w3rec.cooccurrence_count ∧ ((1/2 : ℚ) : ℝ) ≤ w3rec.similarity_score)
    ∧ cooccurrence_kept 2 2 = true
    ∧ similarity_kept (1/2) ((1/2 : ℚ) : ℝ) := by
  have h := C3_similarity_numeric_contract w3ratings w3movies "alph" (1/2) 2 10 [w3rec] eval_w3
  exact ⟨h.1 w3rec (by simp), h.2.1 2, h.2.2 (1/2)⟩

/-! ### C6: rating aggregation -/

namespace MovieLens

/-- Pairwise transfer along a `Forall₂` correspondence. -/
theorem forall₂_pairwise {α β : Type _} {R : α → β → Prop} {P : α → α → Prop}
    {Q : β → β → Prop} (comp : ∀ a a' b b', R a b → R a' b' → P a a' → Q b b') :
    ∀ {l₁ : List α} {l₂ : List β}, List.Forall₂ R l₁ l₂ → l₁.Pairwise P → l₂.Pairwise Q := by
  intro l₁ l₂ h hp
  induction h with
  | nil => constructor
  | cons hr ht ih =>
    rcases List.pairwise_cons.mp hp with ⟨hhead, htail⟩
    refine List.pairwise_cons.mpr ⟨?_, ih htail⟩
    intro b2 hb2
    rcases forall₂_mem_right ht hb2 with ⟨a2, ha2, hr2⟩
    exact comp _ _ _ _ hr hr2 (hhead a2 ha2)

/-- What a successful `joinMovieStats` guarantees, entrywise. -/
theorem joinMovieStats_ok {movies : List MovieRow} :
    ∀ {l : List RatingAgg} {res : List MovieStat}, joinMovieStats movies l = .ok res →
      List.Forall₂ (fun (s : RatingAgg) (r : MovieStat) =>
        r.movie_id = s.movie_id ∧ r.avg_rating = s.mean ∧ r.rating_count = s.count ∧
        ∃ mv, movies.find? (fun m => decide (m.movie_id = s.movie_id)) = some mv ∧
          r.title = mv.title ∧ r.release_date = mv.release_date.getD "Unknown") l res
  | [], res, h => by
    simp only [joinMovieStats] at h
    cases h
    exact List.Forall₂.nil
  | s :: t, res, h => by
    simp only [joinMovieStats] at h
    split at h
    · exact absurd h (by simp)
    · rename_i mv hmv
      split at h
      · exact absurd h (by simp)
      · rename_i rest hrest
        cases h
        exact List.Forall₂.cons ⟨rfl, rfl, rfl, mv, hmv, rfl, rfl⟩ (joinMovieStats_ok hrest)

end MovieLens

/-- C6: every record returned by the rating aggregation has
`rating_count ≥ min_ratings`; the list is sorted by mean rating
descending and has at most `top_n` records; and each record's release
date comes from the joined movie row, reported as `"Unknown"` when that
row has no release date. -/
theorem C6_rating_aggregation (ratings : List RatingRow) (movies : List MovieRow)
    (min_ratings top_n : ℕ) (res : List MovieStat)
    (h : analyze_top_rated_movies ratings movies min_ratings top_n = .ok res) :
    (∀ r ∈ res, min_ratings ≤ r.rating_count)
    ∧ res.Pairwise (fun a b => b.avg_rating ≤ a.avg_rating)
    ∧ res.length ≤ top_n
    ∧ (∀ r ∈ res, ∃ mv, movies.find? (fun m => decide (m.movie_id = r.movie_id)) = some mv ∧
        r.title = mv.title ∧ (mv.release_date = none → r.release_date = "Unknown")) := by
  simp only [analyze_top_rated_movies] at h
  have hcorr := joinMovieStats_ok h
  have htrans : ∀ a b c : RatingAgg, (decide (b.mean ≤ a.mean)) → (decide (c.mean ≤ b.mean)) →
      (decide (c.mean ≤ a.mean)) := by
    intro a b c h1 h2
    simp only [decide_eq_true_eq] at h1 h2 ⊢
    exact le_trans h2 h1
  have htotal : ∀ a b : RatingAgg, (decide (b.mean ≤ a.mean)) || (decide (a.mean ≤ b.mean)) := by
    intro a b
    simp only [Bool.or_eq_true, decide_eq_true_eq]
    exact le_total _ _
  refine ⟨?_, ?_, ?_, ?_⟩
  · intro r hr
    obtain ⟨s, hs, hR⟩ := forall₂_mem_right hcorr hr
    have hs2 := List.mem_of_mem_take hs
    rw [List.mem_mergeSort] at hs2
    have hq := List.of_mem_filter hs2
    rw [hR.2.2.1]
    simpa using hq
  · refine forall₂_pairwise (P := fun a b : RatingAgg => b.mean ≤ a.mean) ?_ hcorr ?_
    · intro a a2 b b2 hR hR2 hP
      rw [hR.2.1, hR2.2.1]
      exact hP
    · refine List.Pairwise.sublist (List.take_sublist _ _) ?_
      refine (List.sorted_mergeSort htrans htotal _).imp ?_
      intro a b hab
      simpa using hab
  · have hlen := List.Forall₂.length_eq hcorr
    rw [← hlen]
    exact List.length_take_le _ _
  · intro r hr
    obtain ⟨s, hs, hR⟩ := forall₂_mem_right hcorr hr
    obtain ⟨mv, hmv, htitle, hrel⟩ := hR.2.2.2
    refine ⟨mv, ?_, htitle, ?_⟩
    · rw [hR.1]
      exact hmv
    · intro hnone
      rw [hrel, hnone]
      rfl

namespace MovieLens

/-- Evaluation of the rating aggregation on the witness dataset. -/
theorem eval_w6 : analyze_top_rated_movies w6ratings w6movies 1 5 = .ok [w6rec] := by
  simp only [analyze_top_rated_movies]
  norm_num [w6ratings, w6movies, sortedKeysBy, List.dedup, List.mergeSort_singleton,
    List.filter, rnd, roundHE, listMean, joinMovieStats, List.find?, w6rec]

end MovieLens

/-- Witness for C6: the rating-aggregation contract instantiated on the
witness dataset, whose single movie has exactly `min_ratings` ratings
and no release date. -/
theorem C6_witness :
    1 ≤ w6rec.rating_count
    ∧ ([w6rec] : List MovieStat).Pairwise (fun a b => b.avg_rating ≤ a.avg_rating)
    ∧ ([w6rec] : List MovieStat).length ≤ 5
    ∧ (∃ mv, w6movies.find? (fun m => decide (m.movie_id = w6rec.movie_id)) = some mv ∧
        w6rec.title = mv.title ∧ (mv.release_date = none → w6rec.release_date = "Unknown")) := by
  have h := C6_rating_aggregation w6ratings w6movies 1 5 [w6rec] eval_w6
  exact ⟨h.1 w6rec (by simp), h.2.1, h.2.2.1, h.2.2.2 w6rec (by simp)⟩

/-! ### C9: ambiguous target matches -/

namespace MovieLens

theorem filter_head?_eq_find? {α : Type _} (p : α → Bool) (l : List α) :
    (l.filter p).head? = l.find? p := by
  induction l with
  | nil => rfl
  | cons a t ih =>
    by_cases h : p a <;> simp [List.filter_cons, List.find?_cons, h, ih]

end MovieLens

/-- C9: when the case-insensitive substring match of the target title
matches more than one movie row, the row used as the target is the
first matching row in the Movies table's load order, both for the
primary substring and for the fixed fallback substring. -/
theorem C9_first_matching_row (movies : List MovieRow) (target : String) :
    (1 < (movies.filter (fun m => titleContains m.title target)).length →
      findTargetRow movies target =
        movies.find? (fun m => titleContains m.title target))
    ∧ (movies.filter (fun m => titleContains m.title target) = [] →
        1 < (movies.filter (fun m => titleContains m.title "Usual Suspects")).length →
        findTargetRow movies target =
          movies.find? (fun m => titleContains m.title "Usual Suspects")) := by
  constructor
  · intro h1
    have hne : ¬ (movies.filter (fun m => titleContains m.title target)).isEmpty := by
      rw [List.isEmpty_iff]
      intro he
      rw [he] at h1
      simp at h1
    rw [findTargetRow]
    simp only [hne, if_false, Bool.false_eq_true]
    exact filter_head?_eq_find? _ _
  · intro hemp h1
    rw [findTargetRow]
    simp only [hemp, List.isEmpty_nil, if_true]
    exact filter_head?_eq_find? _ _

/-- Witness for C9: two primary matches pick the first row; with no
primary match, two fallback matches pick the first fallback row. -/
theorem C9_witness :
    findTargetRow w9a "alph" = w9a.find? (fun m => titleContains m.title "alph")
    ∧ findTargetRow w9b "zzz" = w9b.find? (fun m => titleContains m.title "Usual Suspects") := by
  constructor
  · exact (C9_first_matching_row w9a "alph").1 (by decide)
  · exact (C9_first_matching_row w9b "zzz").2 (by decide) (by decide)

/-! ### C7: demographic group statistics -/

namespace MovieLens

theorem foldl_min_le_acc (t : List ℕ) (a : ℕ) : t.foldl Nat.min a ≤ a := by
  induction t generalizing a with
  | nil => exact le_refl a
  | cons b t ih => exact le_trans (ih (Nat.min a b)) (Nat.min_le_left a b)

theorem foldl_min_le_mem (t : List ℕ) (a x : ℕ) (hx : x ∈ t) : t.foldl Nat.min a ≤ x := by
  induction t generalizing a with
  | nil => cases hx
  | cons b t ih =>
    rcases List.mem_cons.mp hx with rfl | hx2
    · exact le_trans (foldl_min_le_acc t (Nat.min a x)) (Nat.min_le_right a x)
    · exact ih _ hx2

theorem foldl_min_mem (t : List ℕ) (a : ℕ) : t.foldl Nat.min a = a ∨ t.foldl Nat.min a ∈ t := by
  induction t generalizing a with
  | nil => exact Or.inl rfl
  | cons b t ih =>
    rcases ih (Nat.min a b) with h | h
    · rcases le_total a b with hab | hba
      · refine Or.inl ?_
        simp only [List.foldl_cons, h]
        exact Nat.min_eq_left hab
      · refine Or.inr ?_
        simp only [List.foldl_cons, h]
        have hb : Nat.min a b = b := Nat.min_eq_right hba
        rw [hb]
        exact List.mem_cons_self b t
    · exact Or.inr (List.mem_cons_of_mem b h)

theorem acc_le_foldl_max (t : List ℕ) (a : ℕ) : a ≤ t.foldl Nat.max a := by
  induction t generalizing a with
  | nil => exact le_refl a
  | cons b t ih => exact le_trans (Nat.le_max_left a b) (ih (Nat.max a b))

theorem mem_le_foldl_max (t : List ℕ) (a x : ℕ) (hx : x ∈ t) : x ≤ t.foldl Nat.max a := by
  induction t generalizing a with
  | nil => cases hx
  | cons b t ih =>
    rcases List.mem_cons.mp hx with rfl | hx2
    · exact le_trans (Nat.le_max_right a x) (acc_le_foldl_max t (Nat.max a x))
    · exact ih _ hx2

theorem foldl_max_mem (t : List ℕ) (a : ℕ) : t.foldl Nat.max a = a ∨ t.foldl Nat.max a ∈ t := by
  induction t generalizing a with
  | nil => exact Or.inl rfl
  | cons b t ih =>
    rcases ih (Nat.max a b) with h | h
    · rcases le_total a b with hab | hba
      · refine Or.inr ?_
        simp only [List.foldl_cons, h]
        have hb : Nat.max a b = b := Nat.max_eq_right hab
        rw [hb]
        exact List.mem_cons_self b t
      · refine Or.inl ?_
        simp only [List.foldl_cons, h]
        exact Nat.max_eq_left hba
    · exact Or.inr (List.mem_cons_of_mem b h)

theorem minList_mem {l : List ℕ} (h : l ≠ []) : minList l ∈ l := by
  cases l with
  | nil => exact absurd rfl h
  | cons a t =>
    rcases foldl_min_mem t a with h2 | h2
    · rw [minList, h2]
      exact List.mem_cons_self a t
    · exact List.mem_cons_of_mem a h2

theorem minList_le {l : List ℕ} {x : ℕ} (hx : x ∈ l) : minList l ≤ x := by
  cases l with
  | nil => cases hx
  | cons a t =>
    rcases List.mem_cons.mp hx with rfl | hx2
    · exact foldl_min_le_acc t x
    · exact foldl_min_le_mem t a x hx2

theorem maxList_mem {l : List ℕ} (h : l ≠ []) : maxList l ∈ l := by
  cases l with
  | nil => exact absurd rfl h
  | cons a t =>
    rcases foldl_max_mem t a with h2 | h2
    · rw [maxList, h2]
      exact List.mem_cons_self a t
    · exact List.mem_cons_of_mem a h2

theorem le_maxList {l : List ℕ} {x : ℕ} (hx : x ∈ l) : x ≤ maxList l := by
  cases l with
  | nil => cases hx
  | cons a t =>
    rcases List.mem_cons.mp hx with rfl | hx2
    · exact acc_le_foldl_max t x
    · exact mem_le_foldl_max t a x hx2

end MovieLens

/-- C7 (amended): for every occupation present in the Users table the
demographic output contains a record whose `mean_age` is the group's
arithmetic mean rounded to 2 decimals, whose `user_count` is the
group's cardinality, whose `min_age`/`max_age` are the group's minimum
and maximum age, and whose `std_dev` is the sample standard deviation
rounded to 2 decimals, reported as `0.0` when the group has fewer than
2 members. -/
theorem C7_demographic_group_stats (users : List UserRow) (occ : String)
    (hocc : occ ∈ users.map (fun u => u.occupation)) :
    ∃ r ∈ analyze_mean_age_by_occupation users,
      r.occupation = occ
      ∧ r.mean_age = rnd 2 (listMean (((users.filter (fun u => decide (u.occupation = occ))).map
          (fun u => u.age)).map (Nat.cast : ℕ → ℚ)))
      ∧ r.user_count = (users.filter (fun u => decide (u.occupation = occ))).length
      ∧ (r.min_age ∈ (users.filter (fun u => decide (u.occupation = occ))).map (fun u => u.age)
          ∧ ∀ a ∈ (users.filter (fun u => decide (u.occupation = occ))).map (fun u => u.age),
              r.min_age ≤ a)
      ∧ (r.max_age ∈ (users.filter (fun u => decide (u.occupation = occ))).map (fun u => u.age)
          ∧ ∀ a ∈ (users.filter (fun u => decide (u.occupation = occ))).map (fun u => u.age),
              a ≤ r.max_age)
      ∧ r.std_dev = (if (users.filter (fun u => decide (u.occupation = occ))).length < 2 then 0
          else rndR 2 (Real.sqrt (sampleVar (((users.filter
            (fun u => decide (u.occupation = occ))).map (fun u => u.age)).map
              (Nat.cast : ℕ → ℚ))))) := by
  have hne : (users.filter (fun u => decide (u.occupation = occ))).map (fun u => u.age) ≠ [] := by
    rcases List.mem_map.mp hocc with ⟨u, hu, rfl⟩
    have : u ∈ users.filter (fun v => decide (v.occupation = u.occupation)) :=
      List.mem_filter.mpr ⟨hu, by simp⟩
    exact List.ne_nil_of_mem (List.mem_map_of_mem _ this)
  simp only [analyze_mean_age_by_occupation]
  refine ⟨_, List.mem_mergeSort.mpr
    (List.mem_map_of_mem _ ((mem_sortedKeysBy _ _ _).mpr hocc)), rfl, rfl, ?_, ?_, ?_, ?_⟩
  · simp
  · exact ⟨minList_mem hne, fun a ha => minList_le ha⟩
  · exact ⟨maxList_mem hne, fun a ha => le_maxList ha⟩
  · rw [List.length_map]

namespace MovieLens

theorem sampleVar_2526 : sampleVar [(25 : ℚ), 26] = 1/2 := by
  norm_num [sampleVar, listMean]

theorem sampleVar_2526_real : ((sampleVar [(25 : ℚ), 26] : ℚ) : ℝ) = 1/2 := by
  rw [sampleVar_2526]
  norm_num

/-- The reported (rounded) standard deviation of the ages 25, 26. -/
theorem rndR_std_2526 : rndR 2 (Real.sqrt ((sampleVar [(25 : ℚ), 26] : ℚ) : ℝ)) = 71/100 := by
  rw [sampleVar_2526_real]
  have h1 : (70.51 : ℝ) ≤ Real.sqrt (1/2) * 100 := by
    have h := (Real.le_sqrt' (by norm_num : (0 : ℝ) < 0.7051)).mpr
      (by norm_num : (0.7051 : ℝ) ^ 2 ≤ 1/2)
    linarith
  have h2 : Real.sqrt (1/2) * 100 < 71 := by
    have h := (Real.sqrt_lt' (by norm_num : (0 : ℝ) < 0.71)).mpr
      (by norm_num : (1/2 : ℝ) < 0.71 ^ 2)
    linarith
  have hfl : ⌊Real.sqrt (1/2) * 10 ^ 2⌋ = (70 : ℤ) := by
    rw [show ((10 : ℝ) ^ 2) = 100 by norm_num]
    rw [Int.floor_eq_iff]
    constructor
    · push_cast
      linarith
    · push_cast
      linarith
  simp only [rndR, roundHER, hfl]
  rw [if_neg (by push_cast; nlinarith), if_pos (by push_cast; nlinarith)]
  norm_num

end MovieLens

/-! ### C7 counterexample and witness -/

namespace MovieLens

/-- The demographic analysis on the two-engineer table reports the
rounded standard deviation. -/
theorem eval_usersTwo_std :
    (analyze_mean_age_by_occupation usersTwo).map (fun r => r.std_dev) =
      [rndR 2 (Real.sqrt ((sampleVar [(25 : ℚ), 26] : ℚ) : ℝ))] := by
  simp only [analyze_mean_age_by_occupation]
  norm_num [usersTwo, sortedKeysBy, strLE, List.dedup, List.mergeSort_singleton, List.filter]

end MovieLens

/-- C7 counterexample: for the Users table with two engineers aged 25
and 26, the reported `std_dev` is `0.71`, which differs from the exact
sample standard deviation `sqrt(1/2)`: the code rounds the standard
deviation to 2 decimals, which the claim omits. -/
theorem C7_counterexample :
    (analyze_mean_age_by_occupation usersTwo).map (fun r => r.std_dev) = [(71 : ℝ)/100]
    ∧ ((71 : ℝ)/100) ≠ Real.sqrt ((sampleVar [(25 : ℚ), 26] : ℚ) : ℝ) := by
  constructor
  · rw [eval_usersTwo_std, rndR_std_2526]
  · intro h
    rw [sampleVar_2526_real] at h
    have h2 := congrArg (fun t : ℝ => t ^ 2) h
    simp only at h2
    rw [Real.sq_sqrt (by norm_num : (0 : ℝ) ≤ 1/2)] at h2
    norm_num at h2

/-- Witness for C7 applied to the one-user table `u7`. -/
theorem C7_witness :
    ∃ r ∈ analyze_mean_age_by_occupation u7,
      r.occupation = "engineer"
      ∧ r.mean_age = rnd 2 (listMean (((u7.filter
          (fun u => decide (u.occupation = "engineer"))).map
          (fun u => u.age)).map (Nat.cast : ℕ → ℚ)))
      ∧ r.user_count = (u7.filter (fun u => decide (u.occupation = "engineer"))).length
      ∧ (r.min_age ∈ (u7.filter (fun u => decide (u.occupation = "engineer"))).map
            (fun u => u.age)
          ∧ ∀ a ∈ (u7.filter (fun u => decide (u.occupation = "engineer"))).map
              (fun u => u.age), r.min_age ≤ a)
      ∧ (r.max_age ∈ (u7.filter (fun u => decide (u.occupation = "engineer"))).map
            (fun u => u.age)
          ∧ ∀ a ∈ (u7.filter (fun u => decide (u.occupation = "engineer"))).map
              (fun u => u.age), a ≤ r.max_age)
      ∧ r.std_dev = (if (u7.filter
            (fun u => decide (u.occupation = "engineer"))).length < 2 then 0
          else rndR 2 (Real.sqrt (sampleVar (((u7.filter
            (fun u => decide (u.occupation = "engineer"))).map (fun u => u.age)).map
              (Nat.cast : ℕ → ℚ))))) :=
  C7_demographic_group_stats u7 "engineer" (by simp [u7])

/-! ### C4: genre ranking -/

namespace MovieLens

theorem pairLE_trans (a b c : String × String) :
    pairLE a b → pairLE b c → pairLE a c := by
  intro h1 h2
  simp only [pairLE, decide_eq_true_eq] at h1 h2 ⊢
  rcases h1 with h1 | ⟨e1, l1⟩
  · rcases h2 with h2 | ⟨e2, l2⟩
    · exact Or.inl (lt_trans h1 h2)
    · exact Or.inl (e2 ▸ h1)
  · rcases h2 with h2 | ⟨e2, l2⟩
    · exact Or.inl (e1 ▸ h2)
    · exact Or.inr ⟨e1.trans e2, le_trans l1 l2⟩

theorem pairLE_total (a b : String × String) : pairLE a b || pairLE b a := by
  simp only [pairLE, Bool.or_eq_true, decide_eq_true_eq]
  rcases lt_trichotomy a.1 b.1 with h | h | h
  · exact Or.inl (Or.inl h)
  · rcases le_total a.2 b.2 with h2 | h2
    · exact Or.inl (Or.inr ⟨h, h2⟩)
    · exact Or.inr (Or.inr ⟨h.symm, h2⟩)
  · exact Or.inr (Or.inl h)

/-- Records built over strictly ascending `(occupation, age_group)` keys
stay in strictly ascending lexicographic order after the final sort. -/
theorem segments_sorted_strict {β : Type _} (mk : String × String → β)
    (keyOf : β → String × String) (hmk : ∀ k, keyOf (mk k) = k)
    (keys : List (String × String))
    (hkeys : keys.Pairwise (fun a b => pairLE a b = true ∧ a ≠ b)) :
    ((keys.map mk).mergeSort (fun a b => pairLE (keyOf a) (keyOf b))).Pairwise
      (fun s t => (keyOf s).1 < (keyOf t).1 ∨
        ((keyOf s).1 = (keyOf t).1 ∧ (keyOf s).2 < (keyOf t).2)) := by
  have hsorted : (keys.map mk).Pairwise
      (fun a b => pairLE (keyOf a) (keyOf b) = true ∧ keyOf a ≠ keyOf b) := by
    rw [List.pairwise_map]
    refine hkeys.imp ?_
    intro a b h
    rw [hmk, hmk]
    exact h
  have heq : (keys.map mk).mergeSort (fun a b => pairLE (keyOf a) (keyOf b)) = keys.map mk :=
    List.mergeSort_of_sorted (hsorted.imp fun h => h.1)
  rw [heq]
  refine hsorted.imp ?_
  intro a b hab
  obtain ⟨hle, hne⟩ := hab
  simp only [pairLE, decide_eq_true_eq] at hle
  rcases hle with h | ⟨he, hl⟩
  · exact Or.inl h
  · exact Or.inr ⟨he, lt_of_le_of_ne hl (fun hc => hne (Prod.ext he hc))⟩

end MovieLens

/-- C4: every genre-ranking segment carries at most 3 genre entries
sorted by mean rating descending, attaches the segment-level count of
distinct users of its `(occupation, age_bucket)` segment (the same
count for all genres of the segment), and the segment list is ordered
ascending lexicographically by `(occupation, age_bucket)`. -/
theorem C4_genre_ranking (ratings : List RatingRow) (users : List UserRow)
    (movie_genres : List MovieGenreRow) :
    (∀ seg ∈ analyze_top_genres_by_occupation_age ratings users movie_genres,
      seg.top_genres.length ≤ 3
      ∧ seg.top_genres.Pairwise (fun a b => b.avg_rating ≤ a.avg_rating)
      ∧ ((users.map (fun u => u.user_id)).Nodup →
          seg.total_users = (((users.filter (fun u => decide (u.occupation = seg.occupation ∧
            get_age_group u.age = seg.age_group))).map
              (fun u => u.user_id)).dedup).length))
    ∧ (analyze_top_genres_by_occupation_age ratings users movie_genres).Pairwise
        (fun s t => s.occupation < t.occupation ∨
          (s.occupation = t.occupation ∧ s.age_group < t.age_group)) := by
  have htrans : ∀ a b c : GenreStat, (decide (b.mean ≤ a.mean)) → (decide (c.mean ≤ b.mean)) →
      (decide (c.mean ≤ a.mean)) := by
    intro a b c h1 h2
    simp only [decide_eq_true_eq] at h1 h2 ⊢
    exact le_trans h2 h1
  have htotal : ∀ a b : GenreStat, (decide (b.mean ≤ a.mean)) || (decide (a.mean ≤ b.mean)) := by
    intro a b
    simp only [Bool.or_eq_true, decide_eq_true_eq]
    exact le_total _ _
  constructor
  · intro seg hseg
    simp only [analyze_top_genres_by_occupation_age] at hseg
    rw [List.mem_mergeSort] at hseg
    rcases List.mem_map.mp hseg with ⟨k, hk, rfl⟩
    refine ⟨?_, ?_, ?_⟩
    · rw [List.length_map]
      exact List.length_take_le _ _
    · rw [List.pairwise_map]
      refine List.Pairwise.sublist (List.take_sublist _ _) ?_
      refine (List.sorted_mergeSort htrans htotal _).imp ?_
      intro a b hab
      simpa using hab
    · intro hnod
      show (List.filter _ (users.map (fun u => (u, get_age_group u.age)))).length = _
      rw [List.filter_map, List.length_map]
      have hnd : (((users.filter (fun u => decide (u.occupation = k.1 ∧
          get_age_group u.age = k.2))).map (fun u => u.user_id))).Nodup := by
        refine List.Nodup.sublist ?_ hnod
        exact List.Sublist.map _ (List.filter_sublist _)
      rw [List.Nodup.dedup hnd, List.length_map]
      rfl
  · simp only [analyze_top_genres_by_occupation_age]
    refine segments_sorted_strict _ (fun s : GenreSegment => (s.occupation, s.age_group)) (fun k => rfl) _ ?_
    exact sortedKeysBy_pairwise_ne pairLE pairLE_trans pairLE_total _

namespace MovieLens

/-- Evaluation of the genre ranking on the witness dataset. -/
theorem eval_w4 :
    analyze_top_genres_by_occupation_age w4ratings w4users w4genres = [w4seg] := by
  simp only [analyze_top_genres_by_occupation_age]
  norm_num [w4ratings, w4users, w4genres, w4seg, get_age_group, sortedKeysBy, List.dedup,
    List.mergeSort_singleton, List.filter, List.flatMap, rnd, roundHE, listMean]

end MovieLens

/-- Witness for C4 on the one-segment witness dataset. -/
theorem C4_witness :
    w4seg.top_genres.length ≤ 3
    ∧ w4seg.top_genres.Pairwise (fun a b => b.avg_rating ≤ a.avg_rating)
    ∧ ((w4users.map (fun u => u.user_id)).Nodup →
        w4seg.total_users = (((w4users.filter (fun u => decide (u.occupation = w4seg.occupation ∧
          get_age_group u.age = w4seg.age_group))).map (fun u => u.user_id)).dedup).length)
    ∧ (analyze_top_genres_by_occupation_age w4ratings w4users w4genres).Pairwise
        (fun s t => s.occupation < t.occupation ∨
          (s.occupation = t.occupation ∧ s.age_group < t.age_group)) := by
  have h := C4_genre_ranking w4ratings w4users w4genres
  have hm : w4seg ∈ analyze_top_genres_by_occupation_age w4ratings w4users w4genres := by
    rw [eval_w4]
    exact List.mem_singleton.mpr rfl
  obtain ⟨h1, h2, h3⟩ := h.1 w4seg hm
  exact ⟨h1, h2, h3, h.2⟩

/-! ### C10: natural-key uniqueness -/

namespace MovieLens

open scoped List

theorem map_key_of_map_mk {α κ : Type _} (key : α → κ) (mk : κ → α)
    (hmk : ∀ k, key (mk k) = k) (keys : List κ) : (keys.map mk).map key = keys := by
  rw [List.map_map]
  have h : keys.map (key ∘ mk) = keys.map id := List.map_congr_left (fun k _ => hmk k)
  rw [h, List.map_id]

theorem map_key_mergeSort_nodup {α κ : Type _} (key : α → κ) (mk : κ → α)
    (hmk : ∀ k, key (mk k) = k) (keys : List κ) (hnd : keys.Nodup) (cmp : α → α → Bool) :
    (((keys.map mk).mergeSort cmp).map key).Nodup := by
  have p := (List.mergeSort_perm (keys.map mk) cmp).map key
  refine p.nodup_iff.mpr ?_
  rw [map_key_of_map_mk key mk hmk]
  exact hnd

theorem forall₂_map_eq {α β γ : Type _} {R : α → β → Prop} (f : β → γ) (g : α → γ)
    (hfg : ∀ a b, R a b → f b = g a) :
    ∀ {l₁ : List α} {l₂ : List β}, List.Forall₂ R l₁ l₂ → l₂.map f = l₁.map g := by
  intro l₁ l₂ h
  induction h with
  | nil => rfl
  | cons hr _ ih => simp [ih, hfg _ _ hr]

theorem filterMap_map_key_sublist {α β κ : Type _} (f : α → Option β) (key : β → κ)
    (g : α → κ) (hf : ∀ a b, f a = some b → key b = g a) (l : List α) :
    (l.filterMap f).map key <+ l.map g := by
  induction l with
  | nil => simp
  | cons a t ih =>
    cases hfa : f a with
    | none =>
      rw [List.filterMap_cons_none hfa, List.map_cons]
      exact ih.cons _
    | some b =>
      rw [List.filterMap_cons_some hfa, List.map_cons, List.map_cons, hf a b hfa]
      exact ih.cons₂ _

end MovieLens

/-- C10: no analysis output repeats its natural key: occupations are
unique in the demographic output, movie ids in the rating-aggregation
output, `(occupation, age_bucket)` segments (and within a segment the
genres, hence the `(occupation, age_bucket, genre)` triples) in the
genre-ranking output, and movie ids in the similarity output. -/
theorem C10_natural_key_uniqueness (users : List UserRow) (ratings : List RatingRow)
    (movies : List MovieRow) (movie_genres : List MovieGenreRow) (minR topN : ℕ)
    (target : String) (θ : ℚ) (coThr topN2 : ℕ)
    (res2 : List MovieStat) (res4 : List SimRecord)
    (h2 : analyze_top_rated_movies ratings movies minR topN = .ok res2)
    (h4 : find_similar_movies ratings movies target θ coThr topN2 = .ok res4) :
    ((analyze_mean_age_by_occupation users).map (fun r => r.occupation)).Nodup
    ∧ (res2.map (fun r => r.movie_id)).Nodup
    ∧ ((analyze_top_genres_by_occupation_age ratings users movie_genres).map
        (fun s => (s.occupation, s.age_group))).Nodup
    ∧ (∀ seg ∈ analyze_top_genres_by_occupation_age ratings users movie_genres,
        (seg.top_genres.map (fun e => e.genre)).Nodup)
    ∧ (res4.map (fun r => r.movie_id)).Nodup := by
  refine ⟨?_, ?_, ?_, ?_, ?_⟩
  · simp only [analyze_mean_age_by_occupation]
    exact map_key_mergeSort_nodup (fun r : OccStat => r.occupation) _ (fun k => rfl) _
      (sortedKeysBy_nodup _ _) _
  · simp only [analyze_top_rated_movies] at h2
    have hcorr := joinMovieStats_ok h2
    rw [forall₂_map_eq (fun r : MovieStat => r.movie_id) (fun s : RatingAgg => s.movie_id)
      (fun a b hR => hR.1) hcorr]
    refine List.Nodup.sublist (List.Sublist.map _ (List.take_sublist _ _)) ?_
    refine (((List.mergeSort_perm _ _).map (fun s : RatingAgg => s.movie_id)).nodup_iff).mpr ?_
    refine List.Nodup.sublist (List.Sublist.map _ (List.filter_sublist _)) ?_
    rw [map_key_of_map_mk (fun s : RatingAgg => s.movie_id) _ (fun k => rfl)]
    exact sortedKeysBy_nodup _ _
  · simp only [analyze_top_genres_by_occupation_age]
    exact map_key_mergeSort_nodup (fun s : GenreSegment => (s.occupation, s.age_group)) _
      (fun k => rfl) _ (sortedKeysBy_nodup _ _) _
  · intro seg hseg
    simp only [analyze_top_genres_by_occupation_age] at hseg
    rw [List.mem_mergeSort] at hseg
    rcases List.mem_map.mp hseg with ⟨k, hk, rfl⟩
    rw [List.map_map]
    set key3 := fun s : GenreStat => (s.occupation, s.age_group, s.genre) with hkey3
    have hbase : ∀ (keys : List (String × String × String)) (hnd : keys.Nodup)
        (mk3 : String × String × String → GenreStat)
        (hmk3 : ∀ k3, key3 (mk3 k3) = k3)
        (q : GenreStat → Bool) (cmp : GenreStat → GenreStat → Bool)
        (hq : ∀ s : GenreStat, q s → (s.occupation, s.age_group) = k),
        (((((keys.map mk3).filter q).mergeSort cmp).take 3).map
          (fun s : GenreStat => Prod.snd (Prod.snd (key3 s)))).Nodup := by
      intro keys hnd mk3 hmk3 q cmp hq
      have h4 : (((keys.map mk3).filter q).map key3).Nodup := by
        refine List.Nodup.sublist (List.Sublist.map _ (List.filter_sublist _)) ?_
        rw [map_key_of_map_mk key3 mk3 hmk3]
        exact hnd
      have h5 : ((((keys.map mk3).filter q).mergeSort cmp).map key3).Nodup :=
        (((List.mergeSort_perm _ _).map key3).nodup_iff).mpr h4
      have h6 : ((((keys.map mk3).filter q).mergeSort cmp).take 3).map key3 |>.Nodup :=
        List.Nodup.sublist (List.Sublist.map _ (List.take_sublist _ _)) h5
      have hmemT : ∀ s ∈ (((keys.map mk3).filter q).mergeSort cmp).take 3,
          (s.occupation, s.age_group) = k := by
        intro s hs
        have hs2 := List.mem_of_mem_take hs
        rw [List.mem_mergeSort] at hs2
        exact hq s (List.of_mem_filter hs2)
      have hT : ((((keys.map mk3).filter q).mergeSort cmp).take 3).Nodup :=
        List.Nodup.of_map _ h6
      refine List.Nodup.map_on ?_ hT
      intro x hx y hy hxy
      refine List.inj_on_of_nodup_map h6 hx hy ?_
      have e1 := hmemT x hx
      have e2 := hmemT y hy
      have e3 : (x.occupation, x.age_group) = (y.occupation, y.age_group) := e1.trans e2.symm
      rw [Prod.mk.injEq] at e3
      simp only [hkey3, Prod.mk.injEq]
      exact ⟨e3.1, e3.2, hxy⟩
    refine hbase _ (sortedKeysBy_nodup _ _) _ (fun k3 => rfl) _ _ ?_
    intro s hs
    simpa using hs
  · simp only [find_similar_movies] at h4
    split at h4
    · exact absurd h4 (by simp)
    · have hcorr := joinSimRecords_ok h4
      rw [forall₂_map_eq (fun r : SimRecord => r.movie_id) (fun s : SimEntry => s.movie_id)
        (fun a b hR => hR.1) hcorr]
      refine List.Nodup.sublist (List.Sublist.map _ (List.take_sublist _ _)) ?_
      refine (((List.mergeSort_perm _ _).map (fun s : SimEntry => s.movie_id)).nodup_iff).mpr ?_
      refine List.Nodup.sublist (filterMap_map_key_sublist _ _ (fun a => a)
        (fun a b hb => (evalCandidate_some hb).1) _) ?_
      rw [List.map_id']
      exact sortedKeysBy_nodup _ _

namespace MovieLens

/-- With `min_ratings = 3` no movie of the witness dataset qualifies. -/
theorem eval_w10_rating : analyze_top_rated_movies w3ratings w3movies 3 5 = .ok [] := by
  simp only [analyze_top_rated_movies]
  have hkeys : sortedKeysBy natLE (w3ratings.map (fun r => r.movie_id)) = [1, 2] := by
    rw [sortedKeysBy]
    rw [show (w3ratings.map (fun r => r.movie_id)).dedup = [1, 2] from by decide]
    exact List.mergeSort_of_sorted (by decide)
  rw [hkeys]
  norm_num [w3ratings, List.filter, joinMovieStats]

end MovieLens

/-- Witness for C10: a run over the witness dataset whose rating
aggregation returns no qualifying movie and whose similarity search
returns exactly one record. -/
theorem C10_witness :
    ((analyze_mean_age_by_occupation w10users).map (fun r => r.occupation)).Nodup
    ∧ (([] : List MovieStat).map (fun r => r.movie_id)).Nodup
    ∧ ((analyze_top_genres_by_occupation_age w3ratings w10users w4genres).map
        (fun s => (s.occupation, s.age_group))).Nodup
    ∧ (∀ seg ∈ analyze_top_genres_by_occupation_age w3ratings w10users w4genres,
        (seg.top_genres.map (fun e => e.genre)).Nodup)
    ∧ (([w3rec] : List SimRecord).map (fun r => r.movie_id)).Nodup :=
  C10_natural_key_uniqueness w10users w3ratings w3movies w4genres 3 5 "alph" (1/2) 2 10
    [] [w3rec] eval_w10_rating eval_w3
